import Mathlib

/-!
Verification development for the ruma endpoint-schema compiler and the
audio message event content.

The development shallowly embeds:

* the JSON value model used on the wire (the JSON codec itself is a trusted
  library per the specification, so we model JSON values directly);
* the field-classification, validation, path-template binding and
  marshaling pipeline of the `ruma_api!` schema compiler (the compiler's
  implementation lives outside the given sources, so those operations are
  modelled from the specification, guided by the in-source macro
  documentation in `src/lib.rs`);
* the concrete `set_room_account_data` endpoint schema instance
  (`crates/ruma-client-api/src/config/set_room_account_data.rs`);
* the audio message content types and their serde-attribute-driven
  (de)serialization (`crates/ruma-events/src/room/message/audio.rs`).
-/

namespace Ruma

/-! ## JSON value model -/

/-- A JSON value.  Objects keep their entries in order, as the serializers in
the source emit fields in a fixed order. -/
inductive Json where
  | null
  | bool (b : Bool)
  | num (n : Int)
  | str (s : String)
  | arr (xs : List Json)
  | obj (kvs : List (String × Json))
  deriving Repr

mutual

def Json.beq : Json → Json → Bool
  | .null, .null => true
  | .bool a, .bool b => a == b
  | .num a, .num b => a == b
  | .str a, .str b => a == b
  | .arr xs, .arr ys => Json.beqList xs ys
  | .obj xs, .obj ys => Json.beqObj xs ys
  | _, _ => false

def Json.beqList : List Json → List Json → Bool
  | [], [] => true
  | x :: xs, y :: ys => Json.beq x y && Json.beqList xs ys
  | _, _ => false

def Json.beqObj : List (String × Json) → List (String × Json) → Bool
  | [], [] => true
  | (k, v) :: xs, (l, w) :: ys => k == l && Json.beq v w && Json.beqObj xs ys
  | _, _ => false

end

mutual

theorem Json.beq_iff : ∀ a b : Json, Json.beq a b = true ↔ a = b
  | .null, .null => by simp [Json.beq]
  | .bool a, .bool b => by simp [Json.beq]
  | .num a, .num b => by simp [Json.beq]
  | .str a, .str b => by simp [Json.beq]
  | .arr xs, .arr ys => by simp [Json.beq, Json.beqList_iff xs ys]
  | .obj xs, .obj ys => by simp [Json.beq, Json.beqObj_iff xs ys]
  | .null, .bool _ | .null, .num _ | .null, .str _ | .null, .arr _ | .null, .obj _
  | .bool _, .null | .bool _, .num _ | .bool _, .str _ | .bool _, .arr _ | .bool _, .obj _
  | .num _, .null | .num _, .bool _ | .num _, .str _ | .num _, .arr _ | .num _, .obj _
  | .str _, .null | .str _, .bool _ | .str _, .num _ | .str _, .arr _ | .str _, .obj _
  | .arr _, .null | .arr _, .bool _ | .arr _, .num _ | .arr _, .str _ | .arr _, .obj _
  | .obj _, .null | .obj _, .bool _ | .obj _, .num _ | .obj _, .str _ | .obj _, .arr _ => by
      simp [Json.beq]

theorem Json.beqList_iff : ∀ xs ys : List Json, Json.beqList xs ys = true ↔ xs = ys
  | [], [] => by simp [Json.beqList]
  | x :: xs, y :: ys => by
      simp [Json.beqList, Json.beq_iff x y, Json.beqList_iff xs ys]
  | [], _ :: _ => by simp [Json.beqList]
  | _ :: _, [] => by simp [Json.beqList]

theorem Json.beqObj_iff : ∀ xs ys : List (String × Json),
    Json.beqObj xs ys = true ↔ xs = ys
  | [], [] => by simp [Json.beqObj]
  | (k, v) :: xs, (l, w) :: ys => by
      simp [Json.beqObj, Json.beq_iff v w, Json.beqObj_iff xs ys, and_assoc]
  | [], _ :: _ => by simp [Json.beqObj]
  | _ :: _, [] => by simp [Json.beqObj]

end

instance : DecidableEq Json := fun a b =>
  decidable_of_iff (Json.beq a b = true) (Json.beq_iff a b)

/-! ## Field descriptors and classification -/

/-- The location attribute a schema field may carry
(`#[ruma_api(path)]`, `#[ruma_api(query)]`, `#[ruma_api(header)]`,
`#[ruma_api(body)]`), or none. -/
inductive FieldAttr where
  | path
  | query
  | header
  | body
  deriving DecidableEq, Repr

/-- The wire-location role assigned to a field by the classifier. -/
inductive FieldLoc where
  | path
  | query
  | header
  | bodyMember
  | newtypeBody
  deriving DecidableEq, Repr

/-- Modelled from the spec: the field classifier assigns each field exactly
one wire-location role based on its declared tag, an unlabeled field
defaulting to BodyMember; `#[ruma_api(body)]` is the newtype-body strategy
(the classifier itself is part of the `ruma_api!` macro implementation,
which is not among the given sources; `src/lib.rs` documents the rules). -/
def classify : Option FieldAttr → FieldLoc
  | none => .bodyMember
  | some .path => .path
  | some .query => .query
  | some .header => .header
  | some .body => .newtypeBody

/-- A field descriptor: name and declared location attribute. -/
structure FieldDesc where
  name : String
  attr : Option FieldAttr
  deriving DecidableEq, Repr

/-- The role of a field, as assigned by the classifier. -/
def FieldDesc.loc (f : FieldDesc) : FieldLoc := classify f.attr

/-! ## Path templates -/

/-- A parsed path-template segment: a literal or a variable placeholder. -/
inductive Segment where
  | lit (s : String)
  | var (s : String)
  deriving DecidableEq, Repr

/-- Split a character list on the `/` separator. -/
def splitSlash : List Char → List (List Char)
  | [] => [[]]
  | c :: rest =>
    if c = '/' then [] :: splitSlash rest
    else match splitSlash rest with
      | [] => [[c]]
      | seg :: segs => (c :: seg) :: segs

/-- Modelled from the spec: the path template binder parses a template
string into literal/variable segments; a segment whose identifier is
prefixed with the marker character `:` is a variable placeholder
(`src/lib.rs`: "a Rust identifier prefixed with a colon"). -/
def parseTemplate (t : String) : List Segment :=
  ((splitSlash t.toList).filter (fun s => s ≠ [])).map fun cs =>
    match cs with
    | ':' :: rest => .var (String.mk rest)
    | _ => .lit (String.mk cs)

/-- The names of the variable placeholders of a template, in order. -/
def varNames (segs : List Segment) : List String :=
  segs.filterMap fun s =>
    match s with
    | .var n => some n
    | .lit _ => none

/-! ## Endpoint definitions -/

/-- Endpoint metadata, mirroring the `metadata` block of `ruma_api!`. -/
structure Metadata where
  description : String
  method : String
  name : String
  r0Path : String
  stablePath : String
  rateLimited : Bool
  authentication : String
  added : String
  deriving DecidableEq, Repr

/-- An endpoint definition: metadata plus request and response field
descriptors (the IR produced by the schema parser). -/
structure EndpointDef where
  metadata : Metadata
  requestFields : List FieldDesc
  responseFields : List FieldDesc
  deriving DecidableEq, Repr

/-- The Path-tagged fields of a field list, in declaration order. -/
def pathFields (fields : List FieldDesc) : List FieldDesc :=
  fields.filter fun f => f.loc = .path

/-- The number of fields of a given role in a field list. -/
def countLoc (fields : List FieldDesc) (l : FieldLoc) : Nat :=
  (fields.filter fun f => f.loc = l).length

/-- Whether some field of the list has the newtype-body role. -/
def hasNewtypeBody (fields : List FieldDesc) : Bool :=
  fields.any fun f => f.loc = .newtypeBody

/-- Equality of fallible results is decidable when it is on both sides. -/
instance {ε α : Type} [DecidableEq ε] [DecidableEq α] : DecidableEq (Except ε α) :=
  fun a b =>
    match a, b with
    | .error e, .error e2 =>
      if h : e = e2 then .isTrue (by rw [h])
      else .isFalse (by intro hh; cases hh; exact h rfl)
    | .ok x, .ok y =>
      if h : x = y then .isTrue (by rw [h])
      else .isFalse (by intro hh; cases hh; exact h rfl)
    | .error _, .ok _ => .isFalse (by intro hh; cases hh)
    | .ok _, .error _ => .isFalse (by intro hh; cases hh)

/-! ## Validation (modelled from the spec) -/

/-- The compile-time validation errors named by the specification. -/
inductive ValidationError where
  | bodyConflict
  | duplicateNewtypeBody
  | unboundPathVariable (name : String)
  | templateMismatch
  deriving DecidableEq, Repr

/-- Modelled from the spec: whole-struct body-strategy validation — at most
one NewtypeBody field per struct, and no BodyMember field may coexist with a
NewtypeBody field (the validator is part of the `ruma_api!` macro
implementation, which is not among the given sources; `src/lib.rs` documents
both rules). -/
def validateBody (fields : List FieldDesc) : Except ValidationError Unit :=
  if 2 ≤ countLoc fields .newtypeBody then .error .duplicateNewtypeBody
  else if 1 ≤ countLoc fields .newtypeBody ∧ 1 ≤ countLoc fields .bodyMember then
    .error .bodyConflict
  else .ok ()

/-- A bound template segment: a literal, or a variable bound to the request
field of the given name. -/
inductive Binding where
  | lit (s : String)
  | field (name : String)
  deriving DecidableEq, Repr

/-- Bind the segments one by one: a literal stands, and a placeholder is
bound to the Path-tagged field whose name matches it, failing with
UnboundPathVariable when no Path-tagged field has that name. -/
def bindVars : List Segment → List FieldDesc → Except ValidationError (List Binding)
  | [], _ => .ok []
  | .lit l :: segs, pfs => (bindVars segs pfs).map (fun bs => .lit l :: bs)
  | .var n :: segs, pfs =>
    if pfs.any (fun f => f.name = n) then
      (bindVars segs pfs).map (fun bs => .field n :: bs)
    else .error (.unboundPathVariable n)

/-- Modelled from the spec: the path template binder — fails with
TemplateMismatch when the placeholder count differs from the Path-field
count, and with UnboundPathVariable when a placeholder names no Path-tagged
field; otherwise each placeholder is bound to the Path-tagged field of the
matching name (`src/lib.rs`: path fields are "inserted into the matching
path component"). -/
def bindSegs (segs : List Segment) (pfs : List FieldDesc) :
    Except ValidationError (List Binding) :=
  if (varNames segs).length ≠ pfs.length then .error .templateMismatch
  else bindVars segs pfs

/-- Bind one of an endpoint's templates against its request fields. -/
def bindTemplate (t : String) (fields : List FieldDesc) :
    Except ValidationError (List Binding) :=
  bindSegs (parseTemplate t) (pathFields fields)

/-- A compiled endpoint: the definition plus the bindings of both templates. -/
structure CompiledEndpoint where
  ep : EndpointDef
  r0Bindings : List Binding
  stableBindings : List Binding
  deriving DecidableEq, Repr

/-- Modelled from the spec: the compilation pipeline for one endpoint —
classify and validate both structs, then bind the legacy and the stable
template independently against the same request field set; any error aborts
generation for the endpoint, so no compiled artifact exists for an invalid
schema. -/
def compileEndpoint (ep : EndpointDef) : Except ValidationError CompiledEndpoint :=
  match validateBody ep.requestFields with
  | .error e => .error e
  | .ok _ =>
    match validateBody ep.responseFields with
    | .error e => .error e
    | .ok _ =>
      match bindTemplate ep.metadata.r0Path ep.requestFields with
      | .error e => .error e
      | .ok r0 =>
        match bindTemplate ep.metadata.stablePath ep.requestFields with
        | .error e => .error e
        | .ok st => .ok ⟨ep, r0, st⟩

/-! ## Wire representation and marshaling (modelled from the spec) -/

/-- The abstract wire request: method, resolved path segments, query pairs,
header pairs, and an optional JSON body. -/
structure WireRequest where
  method : String
  path : List String
  query : List (String × String)
  headers : List (String × String)
  body : Option Json
  deriving DecidableEq, Repr

/-- The abstract wire response: header pairs and an optional JSON body. -/
structure WireResponse where
  headers : List (String × String)
  body : Option Json
  deriving DecidableEq, Repr

/-- Render the resolved path segments as a URL path string. -/
def pathString (segs : List String) : String :=
  segs.foldl (fun acc s => acc ++ "/" ++ s) ""

/-- Render a field value into a single wire string (path segment, query
value or header value); string-typed values render verbatim. -/
def renderVal : Json → String
  | .str s => s
  | _ => ""

/-- The wire pairs contributed by the fields satisfying `p`, in declaration
order, omitting fields whose value is absent. -/
def fieldPairs {β : Type} (p : FieldDesc → Bool) (h : Json → β)
    (fields : List FieldDesc) (vals : String → Option Json) : List (String × β) :=
  fields.filterMap fun f =>
    if p f then (vals f.name).map (fun v => (f.name, h v)) else none

/-- Modelled from the spec: the body of the wire form — the single
NewtypeBody field's value verbatim when one exists, otherwise a JSON object
assembled from the BodyMember fields, omitting absent values (an empty
object when no body field exists). -/
def encodeBody (fields : List FieldDesc) (vals : String → Option Json) : Option Json :=
  match fields.find? (fun f => f.loc = .newtypeBody) with
  | some nf => vals nf.name
  | none => some (.obj (fieldPairs (fun f => f.loc = .bodyMember) id fields vals))

/-- Resolve one template segment against the field values: literals stand,
and a placeholder takes the rendered value of the field of the same name. -/
def resolveSeg (vals : String → Option Json) : Segment → String
  | .lit l => l
  | .var n => renderVal ((vals n).getD .null)

/-- Modelled from the spec: outbound marshaling (request to wire) — resolve
the stable path template, collect Query- and Header-tagged fields in stable
field order omitting absent values, and build the body per the declared
strategy. -/
def encodeRequest (ep : EndpointDef) (vals : String → Option Json) : WireRequest where
  method := ep.metadata.method
  path := (parseTemplate ep.metadata.stablePath).map (resolveSeg vals)
  query := fieldPairs (fun f => f.loc = .query) renderVal ep.requestFields vals
  headers := fieldPairs (fun f => f.loc = .header) renderVal ep.requestFields vals
  body := encodeBody ep.requestFields vals

/-- Modelled from the spec: outbound marshaling of a response onto the
simulated wire path (headers and body only). -/
def encodeResponse (ep : EndpointDef) (vals : String → Option Json) : WireResponse where
  headers := fieldPairs (fun f => f.loc = .header) renderVal ep.responseFields vals
  body := encodeBody ep.responseFields vals

/-- Look up the wire path segment standing at the position of the
placeholder of the given name (template and resolved path walked in
parallel). -/
def lookupVar : List Segment → List String → String → Option String
  | .var n :: segs, s :: ss, name =>
    if n = name then some s else lookupVar segs ss name
  | .lit _ :: segs, _ :: ss, name => lookupVar segs ss name
  | _, _, _ => none

/-- Modelled from the spec: inbound unmarshaling of one request field from
the wire form, by role; `none` is a DecodeError. -/
def decodeRequestField (ep : EndpointDef) (wire : WireRequest) (f : FieldDesc) :
    Option (Option Json) :=
  match f.loc with
  | .path =>
    (lookupVar (parseTemplate ep.metadata.stablePath) wire.path f.name).map
      (fun s => some (.str s))
  | .query => some ((List.lookup f.name wire.query).map .str)
  | .header => some ((List.lookup f.name wire.headers).map .str)
  | .bodyMember =>
    match wire.body with
    | some (.obj kvs) => some (List.lookup f.name kvs)
    | _ => none
  | .newtypeBody => some wire.body

/-- Modelled from the spec: inbound unmarshaling of a whole request — every
field is decoded from its wire location; the result lists the field values
in declaration order. -/
def decodeRequest (ep : EndpointDef) (wire : WireRequest) :
    Option (List (String × Option Json)) :=
  ep.requestFields.mapM fun f =>
    (decodeRequestField ep wire f).map fun v => (f.name, v)

/-- Modelled from the spec: inbound unmarshaling of one response field
(headers populate Header-tagged fields, the body the rest). -/
def decodeResponseField (wire : WireResponse) (f : FieldDesc) :
    Option (Option Json) :=
  match f.loc with
  | .header => some ((List.lookup f.name wire.headers).map .str)
  | .bodyMember =>
    match wire.body with
    | some (.obj kvs) => some (List.lookup f.name kvs)
    | _ => none
  | .newtypeBody => some wire.body
  | _ => none

/-- Modelled from the spec: inbound unmarshaling of a whole response. -/
def decodeResponse (ep : EndpointDef) (wire : WireResponse) :
    Option (List (String × Option Json)) :=
  ep.responseFields.mapM fun f =>
    (decodeResponseField wire f).map fun v => (f.name, v)

/-- The request value determined by an assignment of field values: the
fields in declaration order, each with its assigned (possibly absent)
value. -/
def mkRequest (ep : EndpointDef) (vals : String → Option Json) :
    List (String × Option Json) :=
  ep.requestFields.map fun f => (f.name, vals f.name)

/-- The response value determined by an assignment of field values. -/
def mkResponse (ep : EndpointDef) (vals : String → Option Json) :
    List (String × Option Json) :=
  ep.responseFields.map fun f => (f.name, vals f.name)

/-! ## Validity predicates for the round-trip -/

/-- Whether an assigned value is a present string (the shape of a
path-typed field's value). -/
def isStr : Option Json → Bool
  | some (.str _) => true
  | _ => false

/-- Whether an assigned value is absent or a string (the shape of a query-
or header-typed field's value). -/
def isStrOpt : Option Json → Bool
  | none => true
  | some (.str _) => true
  | _ => false

/-- Every placeholder needed by a Path-tagged field occurs in the parsed
template. -/
def templateCovers (t : String) (fields : List FieldDesc) : Bool :=
  (pathFields fields).all fun f => (parseTemplate t).contains (.var f.name)

/-- A structurally valid endpoint definition: distinct field names, valid
body strategy on both structs, the stable template covering every Path
field, and response fields carrying only header/body roles. -/
def ValidEndpoint (ep : EndpointDef) : Prop :=
  (ep.requestFields.map FieldDesc.name).Nodup ∧
  (ep.responseFields.map FieldDesc.name).Nodup ∧
  validateBody ep.requestFields = .ok () ∧
  validateBody ep.responseFields = .ok () ∧
  templateCovers ep.metadata.stablePath ep.requestFields = true ∧
  ep.responseFields.all (fun f => f.loc != .path && f.loc != .query) = true

/-- A valid assignment of request field values: path values are present
strings, query and header values are absent or strings. -/
def ValidAssignment (fields : List FieldDesc) (vals : String → Option Json) : Prop :=
  ∀ f ∈ fields,
    (f.loc = .path → isStr (vals f.name) = true) ∧
    (f.loc = .query → isStrOpt (vals f.name) = true) ∧
    (f.loc = .header → isStrOpt (vals f.name) = true)

instance : DecidablePred (fun p : EndpointDef => ValidEndpoint p) := fun ep => by
  unfold ValidEndpoint; infer_instance

instance (fields : List FieldDesc) (vals : String → Option Json) :
    Decidable (ValidAssignment fields vals) := by
  unfold ValidAssignment; infer_instance

/-! ## The `set_room_account_data` endpoint instance
(`crates/ruma-client-api/src/config/set_room_account_data.rs`) -/

/-- The `set_room_account_data` v3 endpoint schema instance: metadata as in
the source, and the request fields in their declaration order (`data` with
the newtype-body attribute, then `event_type`, `room_id`, `user_id` with the
path attribute); the response block is empty. -/
def setRoomAccountData : EndpointDef where
  metadata :=
    { description := "Associate account data with a room."
      method := "PUT"
      name := "set_room_account_data"
      r0Path := "/_matrix/client/r0/user/:user_id/rooms/:room_id/account_data/:event_type"
      stablePath := "/_matrix/client/v3/user/:user_id/rooms/:room_id/account_data/:event_type"
      rateLimited := false
      authentication := "AccessToken"
      added := "1.0" }
  requestFields :=
    [⟨"data", some .body⟩,
     ⟨"event_type", some .path⟩,
     ⟨"room_id", some .path⟩,
     ⟨"user_id", some .path⟩]
  responseFields := []

/-- The field values of the account-data scenario of the specification. -/
def exampleVals : String → Option Json := fun n =>
  if n = "user_id" then some (.str "@alice:example.org")
  else if n = "room_id" then some (.str "!abc:example.org")
  else if n = "event_type" then some (.str "m.custom")
  else if n = "data" then some (.obj [("x", .num 1)])
  else none

/-! ## Audio message content
(`crates/ruma-events/src/room/message/audio.rs`) -/

/-- A time duration, counted in whole milliseconds (the finest precision
the audio wire formats use). -/
structure Duration where
  millis : Nat
  deriving DecidableEq, Repr

/-- The whole-second count of a duration. -/
def Duration.secs (d : Duration) : Nat := d.millis / 1000

/-- Modelled from the spec: the media source of the clip — a plain URL or
an encrypted-file description (the `MediaSource` type lives outside the
given sources); its keys are flattened into the parent object, `url` for
plain and `file` for encrypted. -/
inductive MediaSource where
  | plain (url : String)
  | encrypted (file : Json)
  deriving DecidableEq, Repr

/-- The flattened wire keys of a media source. -/
def encodeMediaSource : MediaSource → List (String × Json)
  | .plain url => [("url", .str url)]
  | .encrypted file => [("file", file)]

/-- Modelled from the spec: recover a media source from the flattened keys
of the parent object (an encrypted-file key takes precedence). -/
def decodeMediaSource (kvs : List (String × Json)) : Option MediaSource :=
  match List.lookup "file" kvs with
  | some f => some (.encrypted f)
  | none =>
    match List.lookup "url" kvs with
    | some (.str u) => some (.plain u)
    | _ => none

/-- Metadata about an audio clip (`AudioInfo`); every field is optional. -/
structure AudioInfo where
  duration : Option Duration
  mimetype : Option String
  size : Option Nat
  deriving DecidableEq, Repr

/-- Creates an empty `AudioInfo` (the source's `new`, i.e. `default`). -/
def AudioInfo.new : AudioInfo := ⟨none, none, none⟩

/-- Serialize an `AudioInfo` into object entries: `duration` as an integer
millisecond count (the `opt_ms` codec), omitted when absent; `mimetype` and
`size` omitted when absent. -/
def encodeAudioInfo (i : AudioInfo) : List (String × Json) :=
  (match i.duration with
   | some d => [("duration", Json.num d.millis)]
   | none => []) ++
  (match i.mimetype with
   | some m => [("mimetype", Json.str m)]
   | none => []) ++
  (match i.size with
   | some s => [("size", Json.num s)]
   | none => [])

/-- Decode an optional millisecond-precision duration entry: a missing key
yields the absent value, an integer is a millisecond count. -/
def decodeDurationMs : Option Json → Option (Option Duration)
  | none => some none
  | some (.num n) => if 0 ≤ n then some (some ⟨n.toNat⟩) else none
  | some _ => none

/-- Deserialize an `AudioInfo` from a JSON value: all keys optional, a
missing key yielding the absent value. -/
def decodeAudioInfo (j : Json) : Option AudioInfo :=
  match j with
  | .obj kvs => do
    let dur ← decodeDurationMs (List.lookup "duration" kvs)
    let mt ← (match List.lookup "mimetype" kvs with
      | none => some none
      | some (.str m) => some (some m)
      | some _ => none)
    let sz ← (match List.lookup "size" kvs with
      | none => some none
      | some (.num n) => if 0 ≤ n then some (some n.toNat) else none
      | some _ => none)
    pure ⟨dur, mt, sz⟩
  | _ => none

/-- The audio details block (`AudioDetails`), with the `unstable-msc3246`
waveform field compiled in; an amplitude is modelled by its integer value. -/
structure AudioDetails where
  duration : Duration
  waveform : List Nat
  deriving DecidableEq, Repr

/-- Creates a new `AudioDetails` with the given duration and waveform. -/
def AudioDetails.new (duration : Duration) (waveform : List Nat) : AudioDetails :=
  ⟨duration, waveform⟩

/-- Serialize an `AudioDetails` into object entries: `duration` as an
integer second count (the `secs` codec), always present; `waveform` omitted
when empty. -/
def encodeAudioDetails (d : AudioDetails) : List (String × Json) :=
  ("duration", Json.num d.duration.secs) ::
  (if d.waveform = [] then [] else [("waveform", Json.arr (d.waveform.map fun a => Json.num a))])

/-- Decode a nonnegative integer. -/
def decodeNat : Json → Option Nat
  | .num n => if 0 ≤ n then some n.toNat else none
  | _ => none

/-- Deserialize an `AudioDetails` from a JSON value: `duration` is a
required integer second count, `waveform` defaults to the empty list. -/
def decodeAudioDetails (j : Json) : Option AudioDetails :=
  match j with
  | .obj kvs => do
    let durJ ← List.lookup "duration" kvs
    let secsN ← decodeNat durJ
    let wf ← (match List.lookup "waveform" kvs with
      | none => some []
      | some (.arr xs) => xs.mapM decodeNat
      | some _ => none)
    pure ⟨⟨secsN * 1000⟩, wf⟩
  | _ => none

/-- The empty voice-message marker struct (`VoiceInfo`). -/
structure VoiceInfo where
  deriving DecidableEq, Repr

/-- Creates an empty `VoiceInfo`. -/
def VoiceInfo.new : VoiceInfo := ⟨⟩

/-- Deserialize a `VoiceInfo`: any object is the empty marker. -/
def decodeVoiceInfo (j : Json) : Option VoiceInfo :=
  match j with
  | .obj _ => some ⟨⟩
  | _ => none

/-- The payload of an `m.audio` message (`AudioMessageEventContent`). -/
structure AudioMessageEventContent where
  body : String
  source : MediaSource
  info : Option AudioInfo
  audio_details : Option AudioDetails
  voice : Option VoiceInfo
  deriving DecidableEq, Repr

/-- Creates a new `AudioMessageEventContent` with the given body and source
(the `voice` flag filling the voice marker). -/
def AudioMessageEventContent.new (body : String) (source : MediaSource)
    (voice : Bool) : AudioMessageEventContent :=
  ⟨body, source, none, none, if voice then some ⟨⟩ else none⟩

/-- Creates a new non-encrypted content with the given body and url. -/
def AudioMessageEventContent.plain (body : String) (url : String)
    (voice : Bool) : AudioMessageEventContent :=
  .new body (.plain url) voice

/-- Creates a new encrypted content with the given body and encrypted file. -/
def AudioMessageEventContent.encrypted (body : String) (file : Json)
    (voice : Bool) : AudioMessageEventContent :=
  .new body (.encrypted file) voice

/-- The source's `info` builder method (`Self { info: info.into(), ..self }`),
named `withInfo` here because the struct field is already called `info`. -/
def AudioMessageEventContent.withInfo (c : AudioMessageEventContent)
    (info : Option AudioInfo) : AudioMessageEventContent :=
  { c with info := info }

/-- The source's `audio_details` builder method
(`Self { audio_details: audio_details.into(), ..self }`). -/
def AudioMessageEventContent.withAudioDetails (c : AudioMessageEventContent)
    (audio_details : Option AudioDetails) : AudioMessageEventContent :=
  { c with audio_details := audio_details }

/-- Whether the message is a voice message. -/
def AudioMessageEventContent.is_voice (c : AudioMessageEventContent) : Bool :=
  c.voice.isSome

/-- Serialize an `AudioMessageEventContent`: the `msgtype` tag `"m.audio"`,
the body, the flattened source keys, and the three optional blocks, each
omitted entirely when absent (`info`, and the renamed
`org.matrix.msc1767.audio` and `org.matrix.msc3245.voice`). -/
def audioContentEntries (c : AudioMessageEventContent) : List (String × Json) :=
  [("msgtype", .str "m.audio"), ("body", .str c.body)] ++
    encodeMediaSource c.source ++
    (match c.info with
     | some i => [("info", .obj (encodeAudioInfo i))]
     | none => []) ++
    (match c.audio_details with
     | some d => [("org.matrix.msc1767.audio", .obj (encodeAudioDetails d))]
     | none => []) ++
    (match c.voice with
     | some _ => [("org.matrix.msc3245.voice", .obj [])]
     | none => [])

/-- Serialize an `AudioMessageEventContent` as the object of its entries. -/
def encodeAudioContent (c : AudioMessageEventContent) : Json :=
  .obj (audioContentEntries c)

/-- Deserialize an `AudioMessageEventContent` from a JSON value: the
`msgtype` tag must be `"m.audio"`, `body` is a required string, the source
is recovered from the flattened keys, and each optional block yields the
absent value when its key is missing. -/
def decodeAudioContent (j : Json) : Option AudioMessageEventContent :=
  match j with
  | .obj kvs => do
    let tag ← List.lookup "msgtype" kvs
    if tag = Json.str "m.audio" then do
      let bodyJ ← List.lookup "body" kvs
      let body ← (match bodyJ with
        | .str s => some s
        | _ => none)
      let source ← decodeMediaSource kvs
      let info ← (match List.lookup "info" kvs with
        | none => some none
        | some ij => (decodeAudioInfo ij).map some)
      let det ← (match List.lookup "org.matrix.msc1767.audio" kvs with
        | none => some none
        | some dj => (decodeAudioDetails dj).map some)
      let voice ← (match List.lookup "org.matrix.msc3245.voice" kvs with
        | none => some none
        | some vj => (decodeVoiceInfo vj).map some)
      pure ⟨body, source, info, det, voice⟩
    else none
  | _ => none

/-! ## Auxiliary schemas and alternative binder used to settle the claims -/

/-- The resolution rule as the declaration-order reading words it: the Nth
variable placeholder takes the value of the Nth Path-tagged field,
placeholder names ignored (compared below with the by-name binder actually
documented by the source). -/
def resolveSegsByOrder : List Segment → List String → List String
  | [], _ => []
  | .lit l :: segs, vs => l :: resolveSegsByOrder segs vs
  | .var _ :: segs, v :: vs => v :: resolveSegsByOrder segs vs
  | .var n :: segs, [] => n :: resolveSegsByOrder segs []

/-- The rendered values of the Path-tagged fields, in declaration order. -/
def pathValuesByDecl (fields : List FieldDesc) (vals : String → Option Json) :
    List String :=
  (pathFields fields).map fun f => renderVal ((vals f.name).getD .null)

/-- A schema whose template has two placeholders but only one Path field. -/
def mismatchedEndpoint : EndpointDef where
  metadata :=
    { description := "arity mismatch example"
      method := "GET"
      name := "mismatched"
      r0Path := "/a/:x/:y"
      stablePath := "/a/:x/:y"
      rateLimited := false
      authentication := "None"
      added := "1.0" }
  requestFields := [⟨"x", some .path⟩]
  responseFields := []

/-- A struct declaring a newtype-body field next to an unlabeled (body
member) field. -/
def conflictedFields : List FieldDesc := [⟨"a", some .body⟩, ⟨"b", none⟩]

/-! ## Helper lemmas for the round-trip -/

theorem isStr_iff (v : Option Json) : isStr v = true ↔ ∃ s, v = some (.str s) := by
  cases v with
  | none => simp [isStr]
  | some j => cases j <;> simp [isStr]

theorem isStrOpt_iff (v : Option Json) :
    isStrOpt v = true ↔ v = none ∨ ∃ s, v = some (.str s) := by
  cases v with
  | none => simp [isStrOpt]
  | some j => cases j <;> simp [isStrOpt]

theorem lookupVar_map (vals : String → Option Json) (segs : List Segment)
    (name : String) (h : Segment.var name ∈ segs) :
    lookupVar segs (segs.map (resolveSeg vals)) name =
      some (resolveSeg vals (.var name)) := by
  induction segs with
  | nil => cases h
  | cons s rest ih =>
    cases s with
    | lit l =>
      have h2 : Segment.var name ∈ rest := by
        cases h with
        | tail _ h3 => exact h3
      simpa only [List.map_cons, lookupVar] using ih h2
    | var n =>
      simp only [List.map_cons, lookupVar]
      by_cases hn : n = name
      · subst hn; simp
      · rw [if_neg hn]
        apply ih
        cases h with
        | head => exact absurd rfl hn
        | tail _ h3 => exact h3

theorem lookup_fieldPairs_none {β : Type} (p : FieldDesc → Bool) (h : Json → β)
    (vals : String → Option Json) (fields : List FieldDesc) (name : String)
    (hname : name ∉ fields.map FieldDesc.name) :
    List.lookup name (fieldPairs p h fields vals) = none := by
  induction fields with
  | nil => rfl
  | cons g rest ih =>
    have hng : name ≠ g.name := by
      intro he; exact hname (by simp [he])
    have hnr : name ∉ rest.map FieldDesc.name := by
      intro hmem; exact hname (by simp [hmem])
    simp only [fieldPairs, List.filterMap_cons]
    by_cases hp : p g
    · rw [if_pos hp]
      cases hv : vals g.name with
      | none => exact ih hnr
      | some v =>
        simp only [Option.map_some']
        rw [List.lookup_cons]
        have hb : (name == g.name) = false := by simp [hng]
        simp only [hb, Bool.false_eq_true, if_false]
        exact ih hnr
    · rw [if_neg hp]
      exact ih hnr

theorem lookup_fieldPairs {β : Type} (p : FieldDesc → Bool) (h : Json → β)
    (vals : String → Option Json) (fields : List FieldDesc) (f : FieldDesc)
    (hnodup : (fields.map FieldDesc.name).Nodup) (hf : f ∈ fields)
    (hp : p f = true) :
    List.lookup f.name (fieldPairs p h fields vals) = (vals f.name).map h := by
  induction fields with
  | nil => cases hf
  | cons g rest ih =>
    have hnd2 : (rest.map FieldDesc.name).Nodup := (List.nodup_cons.mp hnodup).2
    have hgr : g.name ∉ rest.map FieldDesc.name := (List.nodup_cons.mp hnodup).1
    simp only [fieldPairs, List.filterMap_cons]
    rcases List.mem_cons.mp hf with rfl | hfr
    · rw [if_pos hp]
      cases hv : vals f.name with
      | none =>
        exact lookup_fieldPairs_none p h vals rest f.name hgr
      | some v =>
        simp only [Option.map_some']
        rw [List.lookup_cons]
        simp
    · have hfg : f.name ≠ g.name := by
        intro he
        exact hgr (he ▸ List.mem_map_of_mem FieldDesc.name hfr)
      by_cases hpg : p g
      · rw [if_pos hpg]
        cases hv : vals g.name with
        | none => exact ih hnd2 hfr
        | some v =>
          simp only [Option.map_some']
          rw [List.lookup_cons]
          have hb : (f.name == g.name) = false := by simp [hfg]
          simp only [hb, Bool.false_eq_true, if_false]
          exact ih hnd2 hfr
      · rw [if_neg hpg]
        exact ih hnd2 hfr

theorem mem_fieldPairs {β : Type} (p : FieldDesc → Bool) (h : Json → β)
    (vals : String → Option Json) (fields : List FieldDesc) (f : FieldDesc)
    (v : Json) (hf : f ∈ fields) (hp : p f = true) (hv : vals f.name = some v) :
    (f.name, h v) ∈ fieldPairs p h fields vals := by
  unfold fieldPairs
  rw [List.mem_filterMap]
  exact ⟨f, hf, by rw [if_pos hp, hv]; rfl⟩

theorem mem_eq_of_length_le_one {α : Type} (xs : List α) (hlen : xs.length ≤ 1)
    (a : α) (ha : a ∈ xs) (b : α) (hb : b ∈ xs) : a = b := by
  cases xs with
  | nil => cases ha
  | cons x rest =>
    cases rest with
    | nil =>
      have ha2 : a = x := by simpa using ha
      have hb2 : b = x := by simpa using hb
      rw [ha2, hb2]
    | cons y more => simp at hlen

theorem validateBody_ok (fields : List FieldDesc)
    (hok : validateBody fields = .ok ()) :
    countLoc fields .newtypeBody ≤ 1 ∧
      (countLoc fields .newtypeBody = 0 ∨ countLoc fields .bodyMember = 0) := by
  unfold validateBody at hok
  by_cases h1 : 2 ≤ countLoc fields .newtypeBody
  · rw [if_pos h1] at hok; cases hok
  · rw [if_neg h1] at hok
    by_cases h2 : 1 ≤ countLoc fields .newtypeBody ∧ 1 ≤ countLoc fields .bodyMember
    · rw [if_pos h2] at hok; cases hok
    · omega

theorem countLoc_eq_zero (fields : List FieldDesc) (l : FieldLoc)
    (h : countLoc fields l = 0) : ∀ f ∈ fields, f.loc ≠ l := by
  intro f hf hl
  unfold countLoc at h
  rw [List.length_eq_zero] at h
  have hmem : f ∈ fields.filter (fun g => g.loc = l) :=
    List.mem_filter.mpr ⟨hf, by simp [hl]⟩
  rw [h] at hmem
  cases hmem

theorem countLoc_pos (fields : List FieldDesc) (l : FieldLoc) (f : FieldDesc)
    (hf : f ∈ fields) (hl : f.loc = l) : 1 ≤ countLoc fields l := by
  unfold countLoc
  have hmem : f ∈ fields.filter (fun g => g.loc = l) :=
    List.mem_filter.mpr ⟨hf, by simp [hl]⟩
  exact List.length_pos.mpr (List.ne_nil_of_mem hmem)

theorem find?_newtype_eq (fields : List FieldDesc) (f nf : FieldDesc)
    (hcount : countLoc fields .newtypeBody ≤ 1) (hf : f ∈ fields)
    (hl : f.loc = .newtypeBody)
    (hfind : fields.find? (fun g => g.loc = .newtypeBody) = some nf) : nf = f := by
  have hnf_mem : nf ∈ fields := List.mem_of_find?_eq_some hfind
  have hnf_p : nf.loc = .newtypeBody := by
    have h2 := List.find?_some (p := fun g : FieldDesc => decide (g.loc = FieldLoc.newtypeBody)) hfind
    simpa using h2
  have hnf : nf ∈ fields.filter (fun g => g.loc = .newtypeBody) :=
    List.mem_filter.mpr ⟨hnf_mem, by simp [hnf_p]⟩
  have hff : f ∈ fields.filter (fun g => g.loc = .newtypeBody) :=
    List.mem_filter.mpr ⟨hf, by simp [hl]⟩
  exact mem_eq_of_length_le_one _ hcount nf hnf f hff

theorem mapM_option_some {α β : Type} (step : α → Option β) (g : α → β) :
    ∀ xs : List α, (∀ x ∈ xs, step x = some (g x)) →
      xs.mapM step = some (xs.map g)
  | [], _ => rfl
  | x :: xs, H => by
    rw [List.mapM_cons, H x (List.mem_cons_self x xs),
      mapM_option_some step g xs (fun y hy => H y (List.mem_cons_of_mem x hy))]
    rfl

theorem decodeRequestField_encode (ep : EndpointDef) (vals : String → Option Json)
    (hvalid : ValidEndpoint ep) (hassign : ValidAssignment ep.requestFields vals)
    (f : FieldDesc) (hf : f ∈ ep.requestFields) :
    decodeRequestField ep (encodeRequest ep vals) f = some (vals f.name) := by
  obtain ⟨hnodup, _, hbodyok, _, hcov, _⟩ := hvalid
  obtain ⟨hpathv, hqueryv, hheaderv⟩ := hassign f hf
  obtain ⟨hcount, hexcl⟩ := validateBody_ok ep.requestFields hbodyok
  cases hloc : f.loc with
  | path =>
    obtain ⟨s, hs⟩ := (isStr_iff _).mp (hpathv hloc)
    have hmem : Segment.var f.name ∈ parseTemplate ep.metadata.stablePath := by
      have h1 : f ∈ pathFields ep.requestFields :=
        List.mem_filter.mpr ⟨hf, by simp [hloc]⟩
      unfold templateCovers at hcov
      have h2 := List.all_eq_true.mp hcov f h1
      simpa using h2
    simp only [decodeRequestField, hloc, encodeRequest]
    rw [lookupVar_map vals _ _ hmem]
    simp [resolveSeg, hs, renderVal]
  | query =>
    have hq := (isStrOpt_iff _).mp (hqueryv hloc)
    simp only [decodeRequestField, hloc, encodeRequest]
    rw [lookup_fieldPairs _ _ vals _ f hnodup hf (by simp [hloc])]
    rcases hq with hq | ⟨s, hs⟩
    · simp [hq]
    · simp [hs, renderVal]
  | header =>
    have hq := (isStrOpt_iff _).mp (hheaderv hloc)
    simp only [decodeRequestField, hloc, encodeRequest]
    rw [lookup_fieldPairs _ _ vals _ f hnodup hf (by simp [hloc])]
    rcases hq with hq | ⟨s, hs⟩
    · simp [hq]
    · simp [hs, renderVal]
  | bodyMember =>
    have hb1 : 1 ≤ countLoc ep.requestFields .bodyMember := countLoc_pos _ _ f hf hloc
    have hn0 : countLoc ep.requestFields .newtypeBody = 0 := by
      rcases hexcl with h | h
      · exact h
      · omega
    have hfind : ep.requestFields.find? (fun g => g.loc = .newtypeBody) = none := by
      rw [List.find?_eq_none]
      intro g hg
      simp only [decide_eq_true_eq]
      exact countLoc_eq_zero _ _ hn0 g hg
    simp only [decodeRequestField, hloc, encodeRequest, encodeBody, hfind]
    rw [lookup_fieldPairs _ _ vals _ f hnodup hf (by simp [hloc])]
    simp
  | newtypeBody =>
    obtain ⟨nf, hfind⟩ : ∃ nf,
        ep.requestFields.find? (fun g => g.loc = .newtypeBody) = some nf := by
      apply Option.isSome_iff_exists.mp
      exact List.find?_isSome.mpr ⟨f, hf, by simp [hloc]⟩
    have hnf := find?_newtype_eq ep.requestFields f nf hcount hf hloc hfind
    subst hnf
    simp only [decodeRequestField, hloc, encodeRequest, encodeBody, hfind]

theorem decodeResponseField_encode (ep : EndpointDef) (vals : String → Option Json)
    (hvalid : ValidEndpoint ep) (hassign : ValidAssignment ep.responseFields vals)
    (f : FieldDesc) (hf : f ∈ ep.responseFields) :
    decodeResponseField (encodeResponse ep vals) f = some (vals f.name) := by
  obtain ⟨_, hnodup, _, hbodyok, _, hroles⟩ := hvalid
  obtain ⟨hpathv, hqueryv, hheaderv⟩ := hassign f hf
  obtain ⟨hcount, hexcl⟩ := validateBody_ok ep.responseFields hbodyok
  have hrole := List.all_eq_true.mp hroles f hf
  cases hloc : f.loc with
  | path => rw [hloc] at hrole; simp at hrole
  | query => rw [hloc] at hrole; simp at hrole
  | header =>
    have hq := (isStrOpt_iff _).mp (hheaderv hloc)
    simp only [decodeResponseField, hloc, encodeResponse]
    rw [lookup_fieldPairs _ _ vals _ f hnodup hf (by simp [hloc])]
    rcases hq with hq | ⟨s, hs⟩
    · simp [hq]
    · simp [hs, renderVal]
  | bodyMember =>
    have hb1 : 1 ≤ countLoc ep.responseFields .bodyMember := countLoc_pos _ _ f hf hloc
    have hn0 : countLoc ep.responseFields .newtypeBody = 0 := by
      rcases hexcl with h | h
      · exact h
      · omega
    have hfind : ep.responseFields.find? (fun g => g.loc = .newtypeBody) = none := by
      rw [List.find?_eq_none]
      intro g hg
      simp only [decide_eq_true_eq]
      exact countLoc_eq_zero _ _ hn0 g hg
    simp only [decodeResponseField, hloc, encodeResponse, encodeBody, hfind]
    rw [lookup_fieldPairs _ _ vals _ f hnodup hf (by simp [hloc])]
    simp
  | newtypeBody =>
    obtain ⟨nf, hfind⟩ : ∃ nf,
        ep.responseFields.find? (fun g => g.loc = .newtypeBody) = some nf := by
      apply Option.isSome_iff_exists.mp
      exact List.find?_isSome.mpr ⟨f, hf, by simp [hloc]⟩
    have hnf := find?_newtype_eq ep.responseFields f nf hcount hf hloc hfind
    subst hnf
    simp only [decodeResponseField, hloc, encodeResponse, encodeBody, hfind]

theorem roundtrip_request (ep : EndpointDef) (vals : String → Option Json)
    (hvalid : ValidEndpoint ep) (hassign : ValidAssignment ep.requestFields vals) :
    decodeRequest ep (encodeRequest ep vals) = some (mkRequest ep vals) := by
  unfold decodeRequest mkRequest
  apply mapM_option_some
  intro f hf
  rw [decodeRequestField_encode ep vals hvalid hassign f hf]
  rfl

theorem roundtrip_response (ep : EndpointDef) (vals : String → Option Json)
    (hvalid : ValidEndpoint ep) (hassign : ValidAssignment ep.responseFields vals) :
    decodeResponse ep (encodeResponse ep vals) = some (mkResponse ep vals) := by
  unfold decodeResponse mkResponse
  apply mapM_option_some
  intro f hf
  rw [decodeResponseField_encode ep vals hvalid hassign f hf]
  rfl

/-- C1: for every endpoint definition and every valid assignment of field
values, decoding the encoding of a request yields a value equal to the
original request, and decoding the encoding of a response on the same
abstract wire channel yields the original response. -/
theorem roundTrip (ep : EndpointDef) (vals rvals : String → Option Json)
    (hvalid : ValidEndpoint ep)
    (hreq : ValidAssignment ep.requestFields vals)
    (hresp : ValidAssignment ep.responseFields rvals) :
    decodeRequest ep (encodeRequest ep vals) = some (mkRequest ep vals) ∧
    decodeResponse ep (encodeResponse ep rvals) = some (mkResponse ep rvals) :=
  ⟨roundtrip_request ep vals hvalid hreq, roundtrip_response ep rvals hvalid hresp⟩

/-! ## Claim theorems: the schema compiler -/

/-- Witness for C1: the round trip at the concrete `set_room_account_data`
endpoint with the scenario's field values (and the empty response). -/
theorem roundTrip_witness :
    decodeRequest setRoomAccountData (encodeRequest setRoomAccountData exampleVals) =
      some (mkRequest setRoomAccountData exampleVals) ∧
    decodeResponse setRoomAccountData
        (encodeResponse setRoomAccountData (fun _ => none)) =
      some (mkResponse setRoomAccountData (fun _ => none)) :=
  roundTrip setRoomAccountData exampleVals (fun _ => none) (by decide) (by decide)
    (by decide)

/-- C2 counterexample: the claimed path omits the `/_matrix/client/v3`
prefix of the endpoint's stable template, so encoding the scenario request
does not produce the path the claim names. -/
theorem accountDataClaimedPathWrong :
    pathString (encodeRequest setRoomAccountData exampleVals).path ≠
      "/user/@alice:example.org/rooms/!abc:example.org/account_data/m.custom" := by
  decide

/-- C2 (amended): encoding the scenario request resolves the full stable
template to
`/_matrix/client/v3/user/@alice:example.org/rooms/!abc:example.org/account_data/m.custom`
with a body that is exactly the object with the single entry `x ↦ 1`; the
empty response encodes to the empty object and decodes from it. -/
theorem accountDataScenario :
    pathString (encodeRequest setRoomAccountData exampleVals).path =
      "/_matrix/client/v3/user/@alice:example.org/rooms/!abc:example.org/account_data/m.custom" ∧
    (encodeRequest setRoomAccountData exampleVals).body =
      some (.obj [("x", .num 1)]) ∧
    (encodeResponse setRoomAccountData (fun _ => none)).body = some (.obj []) ∧
    decodeResponse setRoomAccountData ⟨[], some (.obj [])⟩ = some [] := by
  decide

theorem compileEndpoint_ok_validate (ep : EndpointDef) (c : CompiledEndpoint)
    (h : compileEndpoint ep = .ok c) :
    validateBody ep.requestFields = .ok () ∧
    validateBody ep.responseFields = .ok () ∧
    bindTemplate ep.metadata.r0Path ep.requestFields = .ok c.r0Bindings ∧
    bindTemplate ep.metadata.stablePath ep.requestFields = .ok c.stableBindings := by
  unfold compileEndpoint at h
  cases h1 : validateBody ep.requestFields with
  | error e => rw [h1] at h; cases h
  | ok u =>
    rw [h1] at h
    cases h2 : validateBody ep.responseFields with
    | error e => rw [h2] at h; cases h
    | ok u2 =>
      rw [h2] at h
      cases h3 : bindTemplate ep.metadata.r0Path ep.requestFields with
      | error e => rw [h3] at h; cases h
      | ok r0 =>
        rw [h3] at h
        cases h4 : bindTemplate ep.metadata.stablePath ep.requestFields with
        | error e => rw [h4] at h; cases h
        | ok st =>
          rw [h4] at h
          cases h
          exact ⟨by cases u; rfl, by cases u2; rfl, rfl, rfl⟩

theorem bindVars_get? : ∀ (segs : List Segment) (pfs : List FieldDesc)
    (bs : List Binding), bindVars segs pfs = .ok bs →
    ∀ (i : Nat) (n : String), segs[i]? = some (.var n) →
      bs[i]? = some (.field n) ∧ ∃ f ∈ pfs, f.name = n := by
  intro segs
  induction segs with
  | nil => intro pfs bs hb i n hs; simp at hs
  | cons s rest ih =>
    intro pfs bs hb i n hs
    cases s with
    | lit l =>
      cases hr : bindVars rest pfs with
      | error e => simp only [bindVars, hr, Except.map] at hb; cases hb
      | ok bs2 =>
        simp only [bindVars, hr, Except.map] at hb
        cases hb
        cases i with
        | zero => simp at hs
        | succ j =>
          simp only [List.getElem?_cons_succ] at hs ⊢
          exact ih pfs bs2 hr j n hs
    | var m =>
      by_cases hany : pfs.any (fun f => f.name = m)
      · cases hr : bindVars rest pfs with
        | error e => simp only [bindVars, if_pos hany, hr, Except.map] at hb; cases hb
        | ok bs2 =>
          simp only [bindVars, if_pos hany, hr, Except.map] at hb
          cases hb
          cases i with
          | zero =>
            simp only [List.getElem?_cons_zero, Option.some_inj] at hs
            cases hs
            refine ⟨by simp, ?_⟩
            simpa using hany
          | succ j =>
            simp only [List.getElem?_cons_succ] at hs ⊢
            exact ih pfs bs2 hr j n hs
      · simp only [bindVars, if_neg hany] at hb; cases hb

/-- C3 counterexample: in the `set_room_account_data` endpoint the first
placeholder is `user_id` while the first Path-tagged field (declaration
order) is `event_type`; the encoder fills the first placeholder with the
`user_id` value, and resolving by declaration position instead yields a
different path, so the Nth placeholder does not bind to the Nth Path-tagged
field. -/
theorem bindByOrderCounterexample :
    (varNames (parseTemplate setRoomAccountData.metadata.stablePath))[0]? =
      some "user_id" ∧
    ((pathFields setRoomAccountData.requestFields).map FieldDesc.name)[0]? =
      some "event_type" ∧
    (encodeRequest setRoomAccountData exampleVals).path[4]? =
      some "@alice:example.org" ∧
    exampleVals "event_type" = some (.str "m.custom") ∧
    (encodeRequest setRoomAccountData exampleVals).path ≠
      resolveSegsByOrder (parseTemplate setRoomAccountData.metadata.stablePath)
        (pathValuesByDecl setRoomAccountData.requestFields exampleVals) := by
  decide

/-- C3 (amended): the path template binder binds each variable placeholder
to the Path-tagged field of the same name, independently of declaration
order: when binding succeeds, the placeholder at position i is bound to its
own name, that name names some Path-tagged field, and the encoder's
resolved path carries the value assigned to that name at position i. -/
theorem bindByName (segs : List Segment) (pfs : List FieldDesc)
    (bs : List Binding) (i : Nat) (n : String)
    (hbind : bindSegs segs pfs = .ok bs) (hseg : segs[i]? = some (.var n)) :
    bs[i]? = some (.field n) ∧ (∃ f ∈ pfs, f.name = n) ∧
    ∀ vals : String → Option Json,
      (segs.map (resolveSeg vals))[i]? =
        some (renderVal ((vals n).getD .null)) := by
  have hb2 : bindVars segs pfs = .ok bs := by
    unfold bindSegs at hbind
    by_cases hm : (varNames segs).length ≠ pfs.length
    · rw [if_pos hm] at hbind; cases hbind
    · rw [if_neg hm] at hbind; exact hbind
  obtain ⟨h1, h2⟩ := bindVars_get? segs pfs bs hb2 i n hseg
  refine ⟨h1, h2, ?_⟩
  intro vals
  rw [List.getElem?_map, hseg]
  rfl

/-- Witness for C3 (amended): the fifth segment of the stable template is
the `user_id` placeholder; it binds to the field named `user_id` (the third
Path-tagged field, not the first). -/
theorem bindByName_witness :
    ([.lit "_matrix", .lit "client", .lit "v3", .lit "user", .field "user_id",
      .lit "rooms", .field "room_id", .lit "account_data", .field "event_type"] :
        List Binding)[4]? = some (.field "user_id") ∧
    (∃ f ∈ pathFields setRoomAccountData.requestFields, f.name = "user_id") ∧
    ∀ vals : String → Option Json,
      ((parseTemplate setRoomAccountData.metadata.stablePath).map
        (resolveSeg vals))[4]? =
        some (renderVal ((vals "user_id").getD .null)) :=
  bindByName (parseTemplate setRoomAccountData.metadata.stablePath)
    (pathFields setRoomAccountData.requestFields) _ 4 "user_id" (by decide)
    (by decide)

/-- C4: a struct declaring more than one NewtypeBody field, or a
NewtypeBody field next to any BodyMember field, is rejected by validation
with DuplicateNewtypeBody or BodyConflict, and no endpoint containing such
a struct compiles (no code is generated for it). -/
theorem bodyExclusivity (fields : List FieldDesc)
    (hbad : 2 ≤ countLoc fields .newtypeBody ∨
      (1 ≤ countLoc fields .newtypeBody ∧ 1 ≤ countLoc fields .bodyMember)) :
    (validateBody fields = .error .duplicateNewtypeBody ∨
      validateBody fields = .error .bodyConflict) ∧
    ∀ (ep : EndpointDef) (c : CompiledEndpoint),
      (ep.requestFields = fields ∨ ep.responseFields = fields) →
        compileEndpoint ep ≠ .ok c := by
  have herr : validateBody fields = .error .duplicateNewtypeBody ∨
      validateBody fields = .error .bodyConflict := by
    unfold validateBody
    by_cases h1 : 2 ≤ countLoc fields .newtypeBody
    · left; rw [if_pos h1]
    · right
      rw [if_neg h1]
      have h2 : 1 ≤ countLoc fields .newtypeBody ∧
          1 ≤ countLoc fields .bodyMember := by
        rcases hbad with h | h
        · exact absurd h h1
        · exact h
      rw [if_pos h2]
  refine ⟨herr, ?_⟩
  intro ep c hor hok
  obtain ⟨hreq, hresp, _, _⟩ := compileEndpoint_ok_validate ep c hok
  rcases hor with hfe | hfe
  · rw [hfe] at hreq
    rcases herr with h | h <;> rw [h] at hreq <;> cases hreq
  · rw [hfe] at hresp
    rcases herr with h | h <;> rw [h] at hresp <;> cases hresp

/-- Witness for C4: the concrete conflicted struct (a newtype-body field
`a` next to an unlabeled body-member field `b`) is rejected and never
compiles. -/
theorem bodyExclusivity_witness :
    (validateBody conflictedFields = .error .duplicateNewtypeBody ∨
      validateBody conflictedFields = .error .bodyConflict) ∧
    ∀ (ep : EndpointDef) (c : CompiledEndpoint),
      (ep.requestFields = conflictedFields ∨ ep.responseFields = conflictedFields) →
        compileEndpoint ep ≠ .ok c :=
  bodyExclusivity conflictedFields (by decide)

/-- C5: for either of an endpoint's two templates, a placeholder count
differing from the Path-field count makes the binder fail with
TemplateMismatch, and the endpoint never compiles — the mismatch is a
compile-time rejection, so it is never surfaced at call time. -/
theorem templateArity (ep : EndpointDef) (t : String)
    (ht : t = ep.metadata.r0Path ∨ t = ep.metadata.stablePath)
    (hm : (varNames (parseTemplate t)).length ≠ (pathFields ep.requestFields).length) :
    bindTemplate t ep.requestFields = .error .templateMismatch ∧
    ∀ c : CompiledEndpoint, compileEndpoint ep ≠ .ok c := by
  have hbind : bindTemplate t ep.requestFields = .error .templateMismatch := by
    unfold bindTemplate bindSegs
    rw [if_pos hm]
  refine ⟨hbind, ?_⟩
  intro c hok
  obtain ⟨_, _, hr0, hst⟩ := compileEndpoint_ok_validate ep c hok
  rcases ht with rfl | rfl
  · rw [hbind] at hr0; cases hr0
  · rw [hbind] at hst; cases hst

/-- Witness for C5: the concrete schema with template `/a/:x/:y` and a
single Path field `x` is rejected with TemplateMismatch and never
compiles. -/
theorem templateArity_witness :
    bindTemplate "/a/:x/:y" mismatchedEndpoint.requestFields =
      .error .templateMismatch ∧
    ∀ c : CompiledEndpoint, compileEndpoint mismatchedEndpoint ≠ .ok c :=
  templateArity mismatchedEndpoint "/a/:x/:y" (Or.inl rfl) (by decide)

/-- C8: a request or response field carrying no location attribute is
classified as a BodyMember, and its (present) value is placed as an entry
of the JSON body object of the encoded message. -/
theorem unlabeledDefaultsToBody (fields : List FieldDesc)
    (vals : String → Option Json) (f : FieldDesc) (v : Json) (hf : f ∈ fields)
    (hattr : f.attr = none) (hnt : hasNewtypeBody fields = false)
    (hv : vals f.name = some v) :
    f.loc = .bodyMember ∧
    ∃ kvs, encodeBody fields vals = some (.obj kvs) ∧ (f.name, v) ∈ kvs := by
  have hloc : f.loc = .bodyMember := by rw [FieldDesc.loc, hattr]; rfl
  refine ⟨hloc, ?_⟩
  have hfind : fields.find? (fun g => g.loc = .newtypeBody) = none := by
    rw [List.find?_eq_none]
    intro g hg
    unfold hasNewtypeBody at hnt
    have := List.any_eq_false.mp hnt g hg
    simpa using this
  refine ⟨fieldPairs (fun g => g.loc = .bodyMember) id fields vals, ?_, ?_⟩
  · simp only [encodeBody, hfind]
  · have := mem_fieldPairs (fun g => g.loc = .bodyMember) id vals fields f v hf
      (by simp [hloc]) hv
    simpa using this

/-- Witness for C8: a concrete unlabeled field `value` lands in the body
object. -/
theorem unlabeledDefaultsToBody_witness :
    (⟨"value", none⟩ : FieldDesc).loc = .bodyMember ∧
    ∃ kvs, encodeBody [⟨"value", none⟩]
        (fun n => if n = "value" then some (.str "hi") else none) =
      some (.obj kvs) ∧ ("value", Json.str "hi") ∈ kvs :=
  unlabeledDefaultsToBody [⟨"value", none⟩]
    (fun n => if n = "value" then some (.str "hi") else none)
    ⟨"value", none⟩ (.str "hi") (by decide) rfl (by decide) (by decide)

/-! ## Claim theorems: audio message content -/

theorem decodeAudioContent_optionals (kvs : List (String × Json))
    (c : AudioMessageEventContent) (h : decodeAudioContent (.obj kvs) = some c) :
    (List.lookup "info" kvs = none → c.info = none) ∧
    (List.lookup "org.matrix.msc1767.audio" kvs = none → c.audio_details = none) ∧
    (List.lookup "org.matrix.msc3245.voice" kvs = none → c.voice = none) := by
  simp only [decodeAudioContent, bind, Option.bind_eq_some] at h
  obtain ⟨tag, htag, h⟩ := h
  by_cases htag2 : tag = Json.str "m.audio"
  case neg => rw [if_neg htag2] at h; cases h
  case pos =>
    rw [if_pos htag2] at h
    simp only [Option.bind_eq_some, Option.pure_def, Option.some_inj] at h
    obtain ⟨bodyJ, hbodyJ, bs, hbs, src, hsrc, info, hinfo, det, hdet, voice, hvoice, hc⟩ := h
    subst hc
    refine ⟨?_, ?_, ?_⟩
    · intro hl
      rw [hl] at hinfo
      cases hinfo
      rfl
    · intro hl
      rw [hl] at hdet
      cases hdet
      rfl
    · intro hl
      rw [hl] at hvoice
      cases hvoice
      rfl

theorem decodeAudioInfo_optionals (kvs : List (String × Json)) (i : AudioInfo)
    (h : decodeAudioInfo (.obj kvs) = some i) :
    (List.lookup "duration" kvs = none → i.duration = none) ∧
    (List.lookup "mimetype" kvs = none → i.mimetype = none) ∧
    (List.lookup "size" kvs = none → i.size = none) := by
  simp only [decodeAudioInfo, bind, Option.bind_eq_some, Option.pure_def,
    Option.some_inj] at h
  obtain ⟨dur, hdur, mt, hmt, sz, hsz, hi⟩ := h
  subst hi
  refine ⟨?_, ?_, ?_⟩
  · intro hl
    rw [hl] at hdur
    simp only [decodeDurationMs, Option.some_inj] at hdur
    rw [← hdur]
  · intro hl
    rw [hl] at hmt
    simp only [Option.some_inj] at hmt
    rw [← hmt]
  · intro hl
    rw [hl] at hsz
    simp only [Option.some_inj] at hsz
    rw [← hsz]

theorem encodeAudioContent_omits (c : AudioMessageEventContent) :
    (c.info = none → List.lookup "info" (audioContentEntries c) = none) ∧
    (c.audio_details = none →
      List.lookup "org.matrix.msc1767.audio" (audioContentEntries c) = none) ∧
    (c.voice = none →
      List.lookup "org.matrix.msc3245.voice" (audioContentEntries c) = none) := by
  obtain ⟨b, src, info, det, voice⟩ := c
  refine ⟨?_, ?_, ?_⟩
  · intro hl
    subst hl
    cases src <;> cases det <;> cases voice <;>
      simp [audioContentEntries, encodeMediaSource, List.lookup]
  · intro hl
    subst hl
    cases src <;> cases info <;> cases voice <;>
      simp [audioContentEntries, encodeMediaSource, List.lookup]
  · intro hl
    subst hl
    cases src <;> cases info <;> cases det <;>
      simp [audioContentEntries, encodeMediaSource, List.lookup]

theorem encodeAudioInfo_omits (i : AudioInfo) :
    (i.duration = none → List.lookup "duration" (encodeAudioInfo i) = none) ∧
    (i.mimetype = none → List.lookup "mimetype" (encodeAudioInfo i) = none) ∧
    (i.size = none → List.lookup "size" (encodeAudioInfo i) = none) := by
  obtain ⟨dur, mt, sz⟩ := i
  refine ⟨?_, ?_, ?_⟩
  · intro hl
    subst hl
    cases mt <;> cases sz <;> simp [encodeAudioInfo, List.lookup]
  · intro hl
    subst hl
    cases dur <;> cases sz <;> simp [encodeAudioInfo, List.lookup]
  · intro hl
    subst hl
    cases dur <;> cases mt <;> simp [encodeAudioInfo, List.lookup]

/-- C6: a body member holding the absent value is omitted from the encoded
body object entirely (no key, not null), and decoding a body object lacking
the key yields the absent value — shown for the three optional blocks of
the audio message content and the three optional fields of `AudioInfo`. -/
theorem optionalOmission :
    (∀ c : AudioMessageEventContent,
      (c.info = none → List.lookup "info" (audioContentEntries c) = none) ∧
      (c.audio_details = none →
        List.lookup "org.matrix.msc1767.audio" (audioContentEntries c) = none) ∧
      (c.voice = none →
        List.lookup "org.matrix.msc3245.voice" (audioContentEntries c) = none)) ∧
    (∀ i : AudioInfo,
      (i.duration = none → List.lookup "duration" (encodeAudioInfo i) = none) ∧
      (i.mimetype = none → List.lookup "mimetype" (encodeAudioInfo i) = none) ∧
      (i.size = none → List.lookup "size" (encodeAudioInfo i) = none)) ∧
    (∀ (kvs : List (String × Json)) (c : AudioMessageEventContent),
      decodeAudioContent (.obj kvs) = some c →
      (List.lookup "info" kvs = none → c.info = none) ∧
      (List.lookup "org.matrix.msc1767.audio" kvs = none → c.audio_details = none) ∧
      (List.lookup "org.matrix.msc3245.voice" kvs = none → c.voice = none)) ∧
    (∀ (kvs : List (String × Json)) (i : AudioInfo),
      decodeAudioInfo (.obj kvs) = some i →
      (List.lookup "duration" kvs = none → i.duration = none) ∧
      (List.lookup "mimetype" kvs = none → i.mimetype = none) ∧
      (List.lookup "size" kvs = none → i.size = none)) :=
  ⟨encodeAudioContent_omits, encodeAudioInfo_omits,
    decodeAudioContent_optionals, decodeAudioInfo_optionals⟩

/-- Witness for C6: concrete instances — a plain audio message without
info has no `info` key, the empty `AudioInfo` has no `duration` key, and
decoding objects lacking those keys yields the absent values. -/
theorem optionalOmission_witness :
    List.lookup "info"
      (audioContentEntries (AudioMessageEventContent.plain "b" "mxc://u" false)) = none ∧
    List.lookup "duration" (encodeAudioInfo AudioInfo.new) = none ∧
    (AudioMessageEventContent.plain "b" "mxc://u" false).info = none ∧
    AudioInfo.new.duration = none :=
  ⟨(optionalOmission.1 (AudioMessageEventContent.plain "b" "mxc://u" false)).1 rfl,
   (optionalOmission.2.1 AudioInfo.new).1 rfl,
   (optionalOmission.2.2.1
      [("msgtype", .str "m.audio"), ("body", .str "b"), ("url", .str "mxc://u")]
      (AudioMessageEventContent.plain "b" "mxc://u" false) (by decide)).1 (by decide),
   (optionalOmission.2.2.2 [] AudioInfo.new (by decide)).1 (by decide)⟩

/-- C7: an `m.audio`-tagged content with a body and a flattened source
encodes to an object with the `msgtype` tag and the source's keys at the
top nesting level (`url` for a plain source, `file` for an encrypted one),
with an absent info block omitted entirely; decoding that object
reconstructs the same variant with `info` absent. -/
theorem audioScenario (body url : String) (file : Json) :
    encodeAudioContent (AudioMessageEventContent.plain body url false) =
      .obj [("msgtype", .str "m.audio"), ("body", .str body), ("url", .str url)] ∧
    decodeAudioContent
        (.obj [("msgtype", .str "m.audio"), ("body", .str body), ("url", .str url)]) =
      some (AudioMessageEventContent.plain body url false) ∧
    (AudioMessageEventContent.plain body url false).info = none ∧
    encodeAudioContent (AudioMessageEventContent.encrypted body file false) =
      .obj [("msgtype", .str "m.audio"), ("body", .str body), ("file", file)] := by
  refine ⟨rfl, ?_, rfl, rfl⟩
  have h1 : ("body" == "msgtype") = false := by decide
  have h2 : ("file" == "msgtype") = false := by decide
  have h3 : ("file" == "body") = false := by decide
  have h4 : ("url" == "msgtype") = false := by decide
  have h5 : ("url" == "body") = false := by decide
  have h6 : ("info" == "msgtype") = false := by decide
  have h7 : ("info" == "body") = false := by decide
  have h8 : ("info" == "url") = false := by decide
  simp [decodeAudioContent, decodeMediaSource, List.lookup, h1, h2, h3, h4, h5,
    h6, h7, h8, AudioMessageEventContent.plain, AudioMessageEventContent.new]

/-- C9: `AudioInfo.duration` travels on the wire as an integer number of
milliseconds and is omitted when absent, while `AudioDetails.duration`
travels as an integer number of seconds and is always present — in both
the encode and the decode direction. -/
theorem durationUnits :
    (∀ (i : AudioInfo) (d : Duration), i.duration = some d →
      List.lookup "duration" (encodeAudioInfo i) = some (.num d.millis)) ∧
    (∀ i : AudioInfo, i.duration = none →
      List.lookup "duration" (encodeAudioInfo i) = none) ∧
    (∀ det : AudioDetails,
      List.lookup "duration" (encodeAudioDetails det) =
        some (.num det.duration.secs)) ∧
    (∀ (m : Nat) (i : AudioInfo),
      decodeAudioInfo (.obj [("duration", .num m)]) = some i →
        i.duration = some ⟨m⟩) ∧
    (∀ (sN : Nat) (det : AudioDetails),
      decodeAudioDetails (.obj [("duration", .num sN)]) = some det →
        det.duration = ⟨sN * 1000⟩) := by
  refine ⟨?_, ?_, ?_, ?_, ?_⟩
  · intro i d hd
    simp [encodeAudioInfo, hd, List.lookup]
  · intro i hd
    exact (encodeAudioInfo_omits i).1 hd
  · intro det
    simp [encodeAudioDetails, List.lookup]
  · intro m i h
    have hdec : decodeAudioInfo (.obj [("duration", .num m)]) =
        some ⟨some ⟨m⟩, none, none⟩ := by
      simp [decodeAudioInfo, decodeDurationMs, List.lookup]
    rw [hdec] at h
    cases h
    rfl
  · intro sN det h
    have hdec : decodeAudioDetails (.obj [("duration", .num sN)]) =
        some ⟨⟨sN * 1000⟩, []⟩ := by
      simp [decodeAudioDetails, decodeNat, List.lookup]
    rw [hdec] at h
    cases h
    rfl

/-- Witness for C9: 1500 ms encodes as the integer 1500 in `AudioInfo`,
while 32000 ms encodes as the integer 32 in `AudioDetails`; decoding maps
the integers back at those rates. -/
theorem durationUnits_witness :
    List.lookup "duration" (encodeAudioInfo ⟨some ⟨1500⟩, none, none⟩) =
      some (.num 1500) ∧
    List.lookup "duration" (encodeAudioInfo ⟨none, none, none⟩) = none ∧
    List.lookup "duration" (encodeAudioDetails ⟨⟨32000⟩, []⟩) = some (.num 32) ∧
    (⟨some ⟨1500⟩, none, none⟩ : AudioInfo).duration = some ⟨1500⟩ ∧
    (⟨⟨32000⟩, []⟩ : AudioDetails).duration = ⟨32 * 1000⟩ :=
  ⟨durationUnits.1 ⟨some ⟨1500⟩, none, none⟩ ⟨1500⟩ rfl,
   durationUnits.2.1 ⟨none, none, none⟩ rfl,
   durationUnits.2.2.1 ⟨⟨32000⟩, []⟩,
   durationUnits.2.2.2.1 1500 ⟨some ⟨1500⟩, none, none⟩ (by decide),
   durationUnits.2.2.2.2 32 ⟨⟨32000⟩, []⟩ (by decide)⟩

/-- C10: the `info` builder returns a value whose `info` field is the given
one and whose `body`, `source`, `audio_details` and `voice` fields are
unchanged; the `audio_details` builder likewise changes only
`audio_details`. -/
theorem builderFrame (c : AudioMessageEventContent) (i : Option AudioInfo)
    (d : Option AudioDetails) :
    (c.withInfo i).info = i ∧ (c.withInfo i).body = c.body ∧
    (c.withInfo i).source = c.source ∧
    (c.withInfo i).audio_details = c.audio_details ∧
    (c.withInfo i).voice = c.voice ∧
    (c.withAudioDetails d).audio_details = d ∧
    (c.withAudioDetails d).body = c.body ∧
    (c.withAudioDetails d).source = c.source ∧
    (c.withAudioDetails d).info = c.info ∧
    (c.withAudioDetails d).voice = c.voice :=
  ⟨rfl, rfl, rfl, rfl, rfl, rfl, rfl, rfl, rfl, rfl⟩

end Ruma
